import Mathlib

/-!
Verification of the ezcollegeapp frontend repository.

We give a shallow embedding of the TypeScript code that the claims are
about: the reverse proxy route (app/api/token/refresh/route.ts), the
NextAuth credentials provider and jwt/session callbacks (lib/auth),
the activity review file fetcher, the document parser batch loop,
the testing upload XHR, the all-files grouping, and the user store.
JavaScript truthiness on strings is modelled by comparison with the
empty string, absent JSON fields by Option, and machine integers by Int.
-/

namespace EzCommon

/-- JavaScript `a || b` on strings: the empty string is falsy. -/
def jsOr (a b : String) : String := if a = "" then b else a

namespace Proxy

/-- The HTTP methods the proxy route exports handlers for, plus HEAD
which the body computation distinguishes. -/
inductive Method
  | GET | POST | PUT | PATCH | DELETE | OPTIONS | HEAD
deriving DecidableEq, Repr

/-- Header lists; the fetch Headers object normalises names to lower
case, so names are taken to be lower case strings. -/
abbrev Headers := List (String × String)

/-- `headers.delete(n)`: removes every entry named `n`. -/
def removeHeader (n : String) (hs : Headers) : Headers :=
  hs.filter (fun p => decide (p.1 ≠ n))

/-- `headers.set(n, v)`: replaces any entry named `n` with a single one. -/
def setHeader (n v : String) (hs : Headers) : Headers :=
  removeHeader n hs ++ [(n, v)]

/-- `headers.get(n)`. -/
def getHeader (n : String) (hs : Headers) : Option String :=
  (hs.find? (fun p => decide (p.1 = n))).map (fun p => p.2)

/-- An incoming request to the catch-all proxy route: the `path`
segments of the dynamic route, the query string of the request URL,
its headers and raw body bytes. -/
structure Req where
  method : Method
  pathSegments : List String
  search : String
  headers : Headers
  bodyBytes : String
deriving DecidableEq, Repr

/-- `backendBase.replace(/\/$/, '')`: drops one trailing slash. -/
def dropTrailingSlash (s : String) : String :=
  if s.endsWith "/" then s.dropRight 1 else s

/-- The request the proxy sends to the backend. -/
structure Forwarded where
  url : String
  method : Method
  headers : Headers
  body : Option String
deriving DecidableEq, Repr

/-- The backend response observed by the proxy. -/
structure BackendResp where
  status : Nat
  headers : Headers
  body : String
deriving DecidableEq, Repr

/-- The response the proxy returns to its caller. -/
structure Resp where
  status : Nat
  headers : Headers
  body : String
deriving DecidableEq, Repr

/-- `getServerSession` wrapped in try/catch: a throwing session fetch
is caught and treated as no token. -/
def sessionAccessToken : Except Unit (Option String) → Option String
  | Except.error _ => none
  | Except.ok t => t

/-- The request-building part of `proxy`: resolves the target URL from
`BACKEND_URL` (with origin and localhost fallbacks), strips the `host`
and `content-length` headers, attaches `authorization: Bearer <token>`
when the session holds a truthy access token, and keeps the body for
non-GET, non-HEAD methods. -/
def forwardedRequest (envBackendUrl origin : String)
    (sess : Except Unit (Option String)) (req : Req) : Forwarded :=
  let path := String.intercalate "/" req.pathSegments
  let backendBase := jsOr (jsOr envBackendUrl origin) "http://127.0.0.1:8000"
  let targetBase := dropTrailingSlash backendBase
  let targetUrl := (if path = "" then targetBase else targetBase ++ "/" ++ path) ++ req.search
  let headers0 := removeHeader "content-length" (removeHeader "host" req.headers)
  let headers :=
    match sessionAccessToken sess with
    | some t => if t = "" then headers0 else setHeader "authorization" ("Bearer " ++ t) headers0
    | none => headers0
  let body :=
    match req.method with
    | Method.GET => none
    | Method.HEAD => none
    | _ => some req.bodyBytes
  { url := targetUrl, method := req.method, headers := headers, body := body }

/-- The whole `proxy` handler: forwards the request and returns the
backend status and body, with `content-encoding` dropped from the
response headers. -/
def proxy (envBackendUrl origin : String) (sess : Except Unit (Option String))
    (req : Req) (backend : Forwarded → BackendResp) : Resp :=
  let fwd := forwardedRequest envBackendUrl origin sess req
  let r := backend fwd
  { status := r.status, headers := removeHeader "content-encoding" r.headers, body := r.body }

/-- A sample request used by witness theorems. -/
def demoReq : Req :=
  { method := Method.POST
    pathSegments := ["api", "upload", "activity"]
    search := "?user_id=u1"
    headers := [("host", "frontend.example"), ("content-length", "12"), ("accept", "*")]
    bodyBytes := "hello" }

/-- A sample backend used by witness theorems: echoes the forwarded URL. -/
def demoBackend : Forwarded → BackendResp :=
  fun fwd => { status := 201, headers := [("content-encoding", "gzip")], body := fwd.url }

end Proxy

namespace Auth

/-- The raw credentials record handed to `authorize`; absent fields are
`none` and make `safeParse` fail for the required keys. -/
structure Credentials where
  email : Option String
  password : Option String
  remember : Option String
  login_type : Option String
deriving DecidableEq, Repr

/-- `z.union([z.literal('true'), z.literal('false')]).optional()`. -/
def rememberOk : Option String → Bool
  | none => true
  | some s => s = "true" || s = "false"

/-- `z.union([z.literal('student'), z.literal('org')]).optional()`. -/
def loginTypeOk : Option String → Bool
  | none => true
  | some s => s = "student" || s = "org"

/-- `credentialsSchema.safeParse(raw).success`; the zod email validator
is an external library predicate and is a parameter `emailOk`. -/
def credentialsSchemaOk (emailOk : String → Bool) (c : Credentials) : Bool :=
  (match c.email with
   | some e => emailOk e
   | none => false)
  && (match c.password with
      | some p => decide (6 ≤ p.length)
      | none => false)
  && rememberOk c.remember
  && loginTypeOk c.login_type

/-- The user-shaped payload `data?.user ?? data` taken from the backend
login response body. -/
structure BackendUser where
  id : String
  email : String
  first_name : Option String
  last_name : Option String
  role : Option String
  org_id : Option String
deriving DecidableEq, Repr

/-- The decoded backend login response; `userPayload` stands for
`data?.user ?? data`. -/
structure LoginData where
  userPayload : BackendUser
  access_token : Option String
  refresh_token : Option String
  expires_in : Option Int
deriving DecidableEq, Repr

/-- The outcome of an awaited `fetch` plus `res.json()`: the whole
try block throwing, or a response with its `ok` flag and decoded body. -/
inductive FetchOutcome (α : Type)
  | throws
  | response (ok : Bool) (data : α)
deriving DecidableEq, Repr

/-- The user object `authorize` returns on success. -/
structure AuthUser where
  id : String
  email : String
  name : String
  remember : Bool
  role : String
  orgId : Option String
  accessToken : Option String
  refreshToken : Option String
  accessTokenExpiresIn : Option Int
deriving DecidableEq, Repr

/-- `const role: string = userPayload.role ?? 'student'`. -/
def effectiveRole (d : LoginData) : String := d.userPayload.role.getD "student"

/-- `[first_name, last_name].filter(Boolean).join(' ')`. -/
def joinName (a b : Option String) : String :=
  String.intercalate " " (([a, b].filterMap id).filter (fun s => decide (s ≠ "")))

/-- The credentials provider `authorize` callback: schema validation,
backend login call, then the login-type versus role gate. -/
def authorize (emailOk : String → Bool) (c : Credentials)
    (outcome : FetchOutcome LoginData) : Option AuthUser :=
  if credentialsSchemaOk emailOk c then
    let requestedLoginType := c.login_type.getD "student"
    match outcome with
    | FetchOutcome.throws => none
    | FetchOutcome.response ok data =>
      if !ok then none
      else
        let role := effectiveRole data
        let isStudent : Bool := role = "student"
        let isOrgUser : Bool := role = "org_admin" || role = "org_staff"
        if requestedLoginType = "student" && !isStudent then none
        else if requestedLoginType = "org" && !isOrgUser then none
        else
          some
            { id := data.userPayload.id
              email := data.userPayload.email
              name := joinName data.userPayload.first_name data.userPayload.last_name
              remember := c.remember = some "true"
              role := role
              orgId := data.userPayload.org_id
              accessToken := data.access_token
              refreshToken := data.refresh_token
              accessTokenExpiresIn := data.expires_in }
  else none

/-- The NextAuth jwt token object as this app uses it; `none` stands
for both null and undefined, which the callbacks treat alike here. -/
structure Token where
  sub : Option String
  role : Option String
  orgId : Option String
  accessToken : Option String
  refreshToken : Option String
  accessTokenExpires : Option Int
deriving DecidableEq, Repr

/-- The decoded body of a refresh response; an absent `refresh_token`
is the empty string, which the `||` fallback treats as falsy. -/
structure RefreshData where
  access_token : String
  refresh_token : String
  expires_in : Option Int
deriving DecidableEq, Repr

/-- `refreshAccessToken`: on a non-ok response or a throw the catch
branch returns the token with `accessToken: null, accessTokenExpires: 0`. -/
def refreshAccessToken (token : Token) (now : Int)
    (outcome : FetchOutcome RefreshData) : Token :=
  match outcome with
  | FetchOutcome.throws => { token with accessToken := none, accessTokenExpires := some 0 }
  | FetchOutcome.response ok data =>
    if !ok then { token with accessToken := none, accessTokenExpires := some 0 }
    else
      { token with
        accessToken := some data.access_token
        refreshToken :=
          if data.refresh_token = "" then token.refreshToken else some data.refresh_token
        accessTokenExpires := some (now + (data.expires_in.getD 1800) * 1000) }

/-- The guard `if (accessTokenExpires && Date.now() > accessTokenExpires
- 60_000)`: a missing or zero expiry is falsy and skips the refresh. -/
def shouldRefresh (t : Token) (now : Int) : Bool :=
  match t.accessTokenExpires with
  | none => false
  | some e => decide (e ≠ 0) && decide (now > e - 60000)

/-- The jwt callback: copies the signing-in user fields into the token,
then refreshes when the expiry guard fires. -/
def jwtCallback (token : Token) (user : Option AuthUser) (now : Int)
    (refreshOutcome : FetchOutcome RefreshData) : Token :=
  let token :=
    match user with
    | some u =>
      { token with sub := some u.id, role := some u.role, orgId := u.orgId }
    | none => token
  let token :=
    match user with
    | some u =>
      match u.accessToken with
      | some tok =>
        if tok = "" then token
        else
          { token with
            accessToken := some tok
            refreshToken := u.refreshToken
            accessTokenExpires := some (now + (u.accessTokenExpiresIn.getD 1800) * 1000) }
      | none => token
    | none => token
  if shouldRefresh token now then refreshAccessToken token now refreshOutcome else token

/-- The slice of the session object the session callback fills in. -/
structure SessionData where
  userId : Option String
  userRole : Option String
  userOrgId : Option String
  accessToken : Option String
deriving DecidableEq, Repr

/-- The session callback: copies id, role and org id when the token has
a subject, and always exposes `token.accessToken ?? null`. -/
def sessionCallback (token : Token) : SessionData :=
  match token.sub with
  | some s =>
    { userId := some s
      userRole := some (token.role.getD "student")
      userOrgId := token.orgId
      accessToken := token.accessToken }
  | none =>
    { userId := none, userRole := none, userOrgId := none
      accessToken := token.accessToken }

/-- A token with a live access token that is about to expire. -/
def expiringToken : Token :=
  { sub := some "u1", role := some "student", orgId := none
    accessToken := some "old", refreshToken := some "r1"
    accessTokenExpires := some 5000000 }

/-- A token whose refresh has already failed once: the stored expiry is 0. -/
def staleToken : Token :=
  { sub := some "u1", role := some "student", orgId := none
    accessToken := none, refreshToken := some "r1", accessTokenExpires := some 0 }

/-- A successful refresh response body. -/
def freshRefresh : RefreshData :=
  { access_token := "newTok", refresh_token := "newRef", expires_in := some 1800 }

end Auth

namespace ActivityReview

/-- The file DTO the activity review component renders. -/
structure UploadedFile where
  filename : String
  size : Nat
  url : Option String
  uploaded_at : Option String
deriving DecidableEq, Repr

/-- The component state touched by `fetchFiles`. -/
structure State where
  files : List UploadedFile
  loading : Bool
  error : Option String
deriving DecidableEq, Repr

/-- What the single fetch in `fetchFiles` does: the fetch or the json
decode throws (with an `Error` message when the thrown value is an
`Error`), the response is not ok, or it is ok with an optional `files`
array. -/
inductive FetchFilesOutcome
  | throws (message : Option String)
  | notOk
  | okResp (files : Option (List UploadedFile))
deriving DecidableEq, Repr

/-- Observable effects of one `fetchFiles` run: how many network
requests were issued and the arguments of every `setError` call. -/
structure RunLog where
  requestsIssued : Nat
  errorSets : List (Option String)
deriving DecidableEq, Repr

/-- `fetchFiles`: bails out without a request when the session has no
user id; otherwise issues exactly one request, surfaces a failure as a
single inline error message, and clears the loading flag in `finally`. -/
def fetchFiles (userId : Option String) (outcome : FetchFilesOutcome)
    (s : State) : State × RunLog :=
  match userId with
  | none =>
    ({ s with error := some "Missing user id in session", loading := false },
     { requestsIssued := 0, errorSets := [some "Missing user id in session"] })
  | some _ =>
    let s := { s with loading := true, error := none }
    match outcome with
    | FetchFilesOutcome.notOk =>
      ({ s with error := some "Failed to fetch files", loading := false },
       { requestsIssued := 1, errorSets := [none, some "Failed to fetch files"] })
    | FetchFilesOutcome.throws msg =>
      let m := msg.getD "Failed to load files"
      ({ s with error := some m, loading := false },
       { requestsIssued := 1, errorSets := [none, some m] })
    | FetchFilesOutcome.okResp fs =>
      ({ s with files := fs.getD [], loading := false },
       { requestsIssued := 1, errorSets := [none] })

/-- A sample starting state holding a previously fetched list. -/
def demoState : State :=
  { files := [{ filename := "old.pdf", size := 7, url := none, uploaded_at := none }]
    loading := false, error := none }

end ActivityReview

namespace DocumentParser

/-- The S3 file descriptor listed by the parse files endpoint; the
source field named section is called sectionName here because section
is a Lean keyword. -/
structure S3FileInfo where
  key : String
  filename : String
  sectionName : String
  file_type : String
  size : Nat
  last_modified : String
  url : String
deriving DecidableEq, Repr

/-- One extracted chunk inside a parse result. -/
structure Chunk where
  text : String
  category : String
  chunk_type : String
deriving DecidableEq, Repr

/-- The parse result the SSE stream delivers for one file. -/
structure ParseResult where
  status : String
  document_id : String
  source_file : String
  s3_key : String
  sectionName : String
  file_type : String
  chunks_created : Nat
  chunks : List Chunk
  processor_used : String
  opensearch_stored : Bool
deriving DecidableEq, Repr

/-- The per-item status field of `FileItem`. -/
inductive FStatus
  | pending | processing | success | error
deriving DecidableEq, Repr

/-- How one SSE connection of the processing loop ends: a message whose
data carries an error, a message whose data carries the result, or the
onerror handler firing before any result arrived. -/
inductive SSEOutcome
  | errorEvent (msg : String)
  | resultEvent (r : ParseResult)
  | connectionLost
deriving DecidableEq, Repr

/-- The FileItem record rendered per selected file. -/
structure FileItem where
  s3_file : Option S3FileInfo
  status : FStatus
  progress : Nat
  progressMessage : Option String
  result : Option ParseResult
  error : Option String
deriving DecidableEq, Repr

/-- The per-entry status in the processing report. -/
inductive EntryStatus
  | success | error
deriving DecidableEq, Repr

/-- One entry of the processing report. -/
structure ReportEntry where
  filename : String
  status : EntryStatus
  chunks : Option Nat
  error : Option String
deriving DecidableEq, Repr

/-- The processing report; the wall-clock processing_time string is not
modelled. -/
structure Report where
  total_files : Nat
  successful : Nat
  failed : Nat
  total_chunks : Nat
  files : List ReportEntry
deriving DecidableEq, Repr

/-- The FileItem a file starts the loop with. -/
def initialItem (f : S3FileInfo) : FileItem :=
  { s3_file := some f, status := FStatus.pending, progress := 0
    progressMessage := none, result := none, error := none }

/-- The FileItem a file ends the loop with: success with the result on
a result message; otherwise the catch branch fires on the null result
and records the thrown message. -/
def finalItem (f : S3FileInfo) (o : SSEOutcome) : FileItem :=
  match o with
  | SSEOutcome.resultEvent r =>
    { initialItem f with status := FStatus.success, progress := 100, result := some r }
  | SSEOutcome.errorEvent _ =>
    { initialItem f with
        status := FStatus.error
        progress := 0
        error := some "Processing failed - no result received" }
  | SSEOutcome.connectionLost =>
    { initialItem f with
        status := FStatus.error
        progress := 0
        error := some "Processing failed - no result received" }

/-- The successive values the status field of one FileItem takes during
its turn of the loop: pending at creation, processing when its turn
starts, then the terminal assignments (the error path assigns error in
the event handler and again in the catch branch). -/
def statusTrace (f : S3FileInfo) (o : SSEOutcome) : List FStatus :=
  match f, o with
  | _, SSEOutcome.resultEvent _ =>
    [FStatus.pending, FStatus.processing, FStatus.success]
  | _, SSEOutcome.errorEvent _ =>
    [FStatus.pending, FStatus.processing, FStatus.error, FStatus.error]
  | _, SSEOutcome.connectionLost =>
    [FStatus.pending, FStatus.processing, FStatus.error, FStatus.error]

/-- The report entry pushed for one file. -/
def reportEntry (f : S3FileInfo) (o : SSEOutcome) : ReportEntry :=
  match o with
  | SSEOutcome.resultEvent r =>
    { filename := f.filename, status := EntryStatus.success
      chunks := some r.chunks_created, error := none }
  | _ =>
    { filename := f.filename, status := EntryStatus.error
      chunks := none, error := some "Processing failed - no result received" }

/-- EventSource lifecycle events of the processing loop, indexed by the
position of the file in the selection. -/
inductive Ev
  | openConn (i : Nat)
  | closeConn (i : Nat)
deriving DecidableEq, Repr

/-- The connection events the loop emits over the first `n` files: each
iteration opens one EventSource and waits until it is CLOSED before the
next iteration begins. -/
def connTrace : Nat → List Ev
  | 0 => []
  | n + 1 => connTrace n ++ [Ev.openConn n, Ev.closeConn n]

/-- The whole `processSelectedFiles` run over the selected files paired
with how each SSE connection ends: the report and the final FileItems. -/
def processSelectedFiles (inputs : List (S3FileInfo × SSEOutcome)) :
    Report × List FileItem :=
  let results := inputs.map (fun p => reportEntry p.1 p.2)
  let successful := (results.filter (fun r => decide (r.status = EntryStatus.success))).length
  let failed := (results.filter (fun r => decide (r.status = EntryStatus.error))).length
  let totalChunks :=
    ((results.filter (fun r => decide (r.status = EntryStatus.success))).map
      (fun r => r.chunks.getD 0)).sum
  ({ total_files := inputs.length, successful := successful, failed := failed
     total_chunks := totalChunks, files := results },
   inputs.map (fun p => finalItem p.1 p.2))

/-- A sample S3 file for witnesses and counterexamples. -/
def demoFile : S3FileInfo :=
  { key := "users/u1/education/a.pdf", filename := "a.pdf", sectionName := "education"
    file_type := "pdf", size := 10, last_modified := "2024-01-01", url := "u" }

/-- A sample successful parse result. -/
def demoResult : ParseResult :=
  { status := "success", document_id := "doc1", source_file := "a.pdf"
    s3_key := "users/u1/education/a.pdf", sectionName := "education", file_type := "pdf"
    chunks_created := 3, chunks := [], processor_used := "vision", opensearch_stored := true }

end DocumentParser

namespace TestingUpload

/-- Events in the lifetime of the upload XMLHttpRequest. -/
inductive XhrEvent
  | opened
  | progressEvent (pct : Nat)
  | load (status : Nat)
  | networkError
  | abort
deriving DecidableEq, Repr

/-- How the upload ends: onload with a status, or onerror, after the
upload progress percentages seen along the way. -/
inductive UploadOutcome
  | load (status : Nat) (progressPcts : List Nat)
  | networkError (progressPcts : List Nat)
deriving DecidableEq, Repr

/-- The event trace of the XMLHttpRequest in `handleSubmit`: opened,
the upload progress events, then the terminal handler; the code never
calls `xhr.abort()`, so no trace constructor emits an abort event. -/
def xhrTrace : UploadOutcome → List XhrEvent
  | UploadOutcome.load st ps =>
    XhrEvent.opened :: (ps.map XhrEvent.progressEvent ++ [XhrEvent.load st])
  | UploadOutcome.networkError ps =>
    XhrEvent.opened :: (ps.map XhrEvent.progressEvent ++ [XhrEvent.networkError])

end TestingUpload

namespace FileSections

/-- The file DTO of the all-files review; the optional source field
named section is called sectionName here (section is a Lean keyword). -/
structure UploadedFile where
  filename : String
  size : Nat
  url : Option String
  last_modified : Option String
  sectionName : Option String
  s3_key : Option String
deriving DecidableEq, Repr

/-- The four labelled sections of SECTION_LABELS. -/
def knownSections : List String := ["profile", "education", "activity", "testing"]

/-- The group key `fetchAllFiles` uses: `file.section || 'other'`. -/
def sectionOf (f : UploadedFile) : String :=
  match f.sectionName with
  | some s => if s = "" then "other" else s
  | none => "other"

/-- The grouping `fetchAllFiles` builds, keys in first-seen order. -/
def groupBySection (files : List UploadedFile) : List (String × List UploadedFile) :=
  files.foldl
    (fun acc f =>
      let s := sectionOf f
      if (acc.find? (fun p => decide (p.1 = s))).isSome then
        acc.map (fun p => if p.1 = s then (p.1, p.2 ++ [f]) else p)
      else acc ++ [(s, [f])])
    []

/-- The section prop type of SectionFilePreview: a union of exactly the
four literal section names. -/
inductive SectionProp
  | profile | education | activity | testing
deriving DecidableEq, Repr

/-- The string a SectionProp value denotes. -/
def sectionPropKey : SectionProp → String
  | SectionProp.profile => "profile"
  | SectionProp.education => "education"
  | SectionProp.activity => "activity"
  | SectionProp.testing => "testing"

/-- A file listed without a section field. -/
def orphanFile : UploadedFile :=
  { filename := "x.pdf", size := 1, url := none, last_modified := none
    sectionName := none, s3_key := none }

end FileSections

namespace UserStore

/-- The user record lib/user-store.ts persists. -/
structure User where
  id : String
  email : String
  firstName : String
  lastName : String
  passwordHash : String
  createdAt : String
deriving DecidableEq, Repr

/-- The data directory on disk as a map from path to decoded contents;
`none` stands for a file whose contents do not parse as a user array. -/
abbrev Store := List (String × Option (List User))

/-- The path the store reads and writes (`data/users.json` by default). -/
def dataFile : String := "data/users.json"

/-- Reading a file from disk: present with decoded contents, or absent. -/
def getFile (s : Store) (p : String) : Option (Option (List User)) :=
  (s.find? (fun q => decide (q.1 = p))).map (fun q => q.2)

/-- Writing a file to disk. -/
def setFile (s : Store) (p : String) (c : Option (List User)) : Store :=
  s.filter (fun q => decide (q.1 ≠ p)) ++ [(p, c)]

/-- `ensureFile`: creates the file holding an empty array when absent. -/
def ensureFile (s : Store) : Store :=
  match getFile s dataFile with
  | some _ => s
  | none => setFile s dataFile (some [])

/-- `readUsers`: the decoded array, or the empty list on a parse failure. -/
def readUsers (s : Store) : List User :=
  match getFile (ensureFile s) dataFile with
  | some (some us) => us
  | some none => []
  | none => []

/-- `writeUsers`: serialises the array into the data file. -/
def writeUsers (s : Store) (users : List User) : Store :=
  setFile (ensureFile s) dataFile (some users)

/-- `addUser`: reads the stored users, appends, and persists. -/
def addUser (s : Store) (u : User) : Store :=
  writeUsers s (readUsers s ++ [u])

/-- A sample user. -/
def demoUser : User :=
  { id := "1", email := "a@b.example", firstName := "A", lastName := "B"
    passwordHash := "hash", createdAt := "2024-01-01" }

end UserStore

/-! ## Theorems -/

namespace Proxy

theorem getHeader_removeHeader_self (n : String) (hs : Headers) :
    getHeader n (removeHeader n hs) = none := by
  induction hs with
  | nil => rfl
  | cons h t ih =>
    by_cases hc : h.1 = n
    · simpa [removeHeader, List.filter, hc] using ih
    · simp only [removeHeader, getHeader, List.filter, List.find?, hc] at ih ⊢
      simpa [hc] using ih

theorem getHeader_removeHeader_ne (m n : String) (hs : Headers) (hmn : m ≠ n) :
    getHeader m (removeHeader n hs) = getHeader m hs := by
  have hnm : n ≠ m := fun h => hmn h.symm
  induction hs with
  | nil => rfl
  | cons h t ih =>
    by_cases hc : h.1 = n
    · have hm : h.1 ≠ m := by
        rw [hc]; exact hnm
      simpa [removeHeader, getHeader, List.filter, List.find?, hc, hm, hnm] using ih
    · by_cases hm : h.1 = m
      · simp [removeHeader, getHeader, List.filter, List.find?, hc, hm, hnm, hmn]
      · simpa [removeHeader, getHeader, List.filter, List.find?, hc, hm] using ih

theorem getHeader_append_right (n : String) (l₁ l₂ : Headers)
    (h : getHeader n l₁ = none) :
    getHeader n (l₁ ++ l₂) = getHeader n l₂ := by
  induction l₁ with
  | nil => rfl
  | cons x t ih =>
    by_cases hc : x.1 = n
    · simp [getHeader, List.find?, hc] at h
    · have ht : getHeader n t = none := by
        simpa [getHeader, List.find?, hc] using h
      simpa [getHeader, List.find?, hc] using ih ht

theorem getHeader_setHeader_self (n v : String) (hs : Headers) :
    getHeader n (setHeader n v hs) = some v := by
  have h := getHeader_append_right n (removeHeader n hs) [(n, v)]
    (getHeader_removeHeader_self n hs)
  rw [setHeader, h]
  simp [getHeader, List.find?]

theorem getHeader_setHeader_ne (m n v : String) (hs : Headers) (hmn : m ≠ n) :
    getHeader m (setHeader n v hs) = getHeader m hs := by
  have hnm : n ≠ m := fun h => hmn h.symm
  unfold setHeader
  induction hs with
  | nil => simp [getHeader, removeHeader, List.find?, hnm]
  | cons x t ih =>
    by_cases hc : x.1 = n
    · have hm : x.1 ≠ m := by
        rw [hc]; exact hnm
      simpa [removeHeader, getHeader, List.filter, List.find?, hc, hm, hnm] using ih
    · by_cases hm : x.1 = m
      · simp [removeHeader, getHeader, List.filter, List.find?, hc, hm, hnm, hmn]
      · simpa [removeHeader, getHeader, List.filter, List.find?, hc, hm] using ih

/-- C1: for every HTTP method handled by the reverse-proxy route, the
request is forwarded to the configured BACKEND_URL with the original
sub-path segments joined by a slash and the original query string
appended unchanged; the host and content-length request headers are
removed; when the server session contains an access token the
authorization header is set to the string Bearer followed by a space
and that token; and the response returned to the caller carries the
backend status code and body. -/
theorem proxy_forwards_request (env origin : String)
    (sess : Except Unit (Option String)) (req : Req)
    (backend : Forwarded → BackendResp) (henv : env ≠ "") :
    (forwardedRequest env origin sess req).url
        = dropTrailingSlash env
          ++ (if String.intercalate "/" req.pathSegments = "" then ""
              else "/" ++ String.intercalate "/" req.pathSegments)
          ++ req.search
    ∧ (forwardedRequest env origin sess req).method = req.method
    ∧ getHeader "host" (forwardedRequest env origin sess req).headers = none
    ∧ getHeader "content-length" (forwardedRequest env origin sess req).headers = none
    ∧ (∀ t, sess = Except.ok (some t) → t ≠ "" →
        getHeader "authorization" (forwardedRequest env origin sess req).headers
          = some ("Bearer " ++ t))
    ∧ (proxy env origin sess req backend).status
        = (backend (forwardedRequest env origin sess req)).status
    ∧ (proxy env origin sess req backend).body
        = (backend (forwardedRequest env origin sess req)).body := by
  have hhost : getHeader "host"
      (removeHeader "content-length" (removeHeader "host" req.headers)) = none := by
    rw [getHeader_removeHeader_ne "host" "content-length" _ (by decide)]
    exact getHeader_removeHeader_self "host" req.headers
  have hcl : getHeader "content-length"
      (removeHeader "content-length" (removeHeader "host" req.headers)) = none :=
    getHeader_removeHeader_self "content-length" _
  refine ⟨?_, ?_, ?_, ?_, ?_, ?_, ?_⟩
  · simp only [forwardedRequest, jsOr, if_neg henv]
    by_cases hp : String.intercalate "/" req.pathSegments = "" <;>
      simp [hp, String.append_assoc]
  · rfl
  · simp only [forwardedRequest]
    rcases sess with e | o
    · simpa [sessionAccessToken] using hhost
    · cases o with
      | none => simpa [sessionAccessToken] using hhost
      | some t =>
        by_cases ht : t = ""
        · simpa [sessionAccessToken, ht] using hhost
        · simp only [sessionAccessToken]
          rw [if_neg ht, getHeader_setHeader_ne "host" "authorization" _ _ (by decide)]
          exact hhost
  · simp only [forwardedRequest]
    rcases sess with e | o
    · simpa [sessionAccessToken] using hcl
    · cases o with
      | none => simpa [sessionAccessToken] using hcl
      | some t =>
        by_cases ht : t = ""
        · simpa [sessionAccessToken, ht] using hcl
        · simp only [sessionAccessToken]
          rw [if_neg ht, getHeader_setHeader_ne "content-length" "authorization" _ _ (by decide)]
          exact hcl
  · intro t hsess ht
    simp only [forwardedRequest, hsess, sessionAccessToken, if_neg ht]
    exact getHeader_setHeader_self "authorization" ("Bearer " ++ t) _
  · rfl
  · rfl

theorem proxy_forwards_request_witness :
    getHeader "authorization"
        (forwardedRequest "http://backend.example" "http://front.example"
          (Except.ok (some "tok")) demoReq).headers
      = some ("Bearer " ++ "tok") :=
  (proxy_forwards_request "http://backend.example" "http://front.example"
      (Except.ok (some "tok")) demoReq demoBackend
      (by decide)).2.2.2.2.1 "tok" rfl (by decide)

end Proxy

namespace Auth

/-- C2: a credentials sign-in yields a user exactly when the schema
validates, the backend login responds ok, and the requested login type
matches the role the backend reports (student needs role student, org
needs org_admin or org_staff, a missing login type defaults to student,
and the code reads a missing role as student); schema failures, thrown
or non-ok backend requests, and role mismatches all yield null. -/
theorem authorize_login_type_gate (emailOk : String → Bool) (c : Credentials)
    (outcome : FetchOutcome LoginData) :
    (authorize emailOk c outcome).isSome = true ↔
      credentialsSchemaOk emailOk c = true ∧
      ∃ d, outcome = FetchOutcome.response true d ∧
        ((c.login_type.getD "student" = "student" ∧ effectiveRole d = "student") ∨
         (c.login_type.getD "student" = "org" ∧
           (effectiveRole d = "org_admin" ∨ effectiveRole d = "org_staff"))) := by
  by_cases hschema : credentialsSchemaOk emailOk c = true
  · cases outcome with
    | throws => simp [authorize, hschema]
    | response ok data =>
      cases ok with
      | false => simp [authorize, hschema]
      | true =>
        have hlt : c.login_type = none ∨ c.login_type = some "student" ∨
            c.login_type = some "org" := by
          have h4 := hschema
          simp only [credentialsSchemaOk, Bool.and_eq_true] at h4
          rcases h4 with ⟨_, h4⟩
          rcases hct : c.login_type with _ | s
          · exact Or.inl rfl
          · rw [hct] at h4
            simp only [loginTypeOk, Bool.or_eq_true, decide_eq_true_eq] at h4
            rcases h4 with h | h
            · exact Or.inr (Or.inl (by rw [h]))
            · exact Or.inr (Or.inr (by rw [h]))
        rcases hlt with h | h | h
        · by_cases hr : effectiveRole data = "student"
          · simp [authorize, hschema, h, hr]
          · simp [authorize, hschema, h, hr]
        · by_cases hr : effectiveRole data = "student"
          · simp [authorize, hschema, h, hr]
          · simp [authorize, hschema, h, hr]
        · by_cases hra : effectiveRole data = "org_admin"
          · simp [authorize, hschema, h, hra]
          · by_cases hrs : effectiveRole data = "org_staff"
            · simp [authorize, hschema, h, hra, hrs]
            · simp [authorize, hschema, h, hra, hrs]
  · have hfalse : credentialsSchemaOk emailOk c = false := by
      simpa using hschema
    simp [authorize, hfalse]

theorem sessionCallback_accessToken (tk : Token) :
    (sessionCallback tk).accessToken = tk.accessToken := by
  cases h : tk.sub <;> simp [sessionCallback, h]

theorem forwardedRequest_headers_noToken (env origin : String) (req : Proxy.Req) :
    (Proxy.forwardedRequest env origin (Except.ok none) req).headers
      = Proxy.removeHeader "content-length" (Proxy.removeHeader "host" req.headers) := by
  simp [Proxy.forwardedRequest, Proxy.sessionAccessToken]

/-- C6 as stated fails at a stored expiry of 0: the current time is past
0 minus 60 seconds, yet the guard treats a zero expiry as falsy and the
jwt callback does not attempt a refresh, returning the token unchanged
even for a refresh endpoint that would succeed. -/
theorem jwt_refresh_guard_counterexample :
    ((1000000 : Int) > 0 - 60000)
    ∧ staleToken.accessTokenExpires = some 0
    ∧ shouldRefresh staleToken 1000000 = false
    ∧ jwtCallback staleToken none 1000000
        (FetchOutcome.response true freshRefresh) = staleToken := by
  refine ⟨by norm_num, rfl, rfl, rfl⟩

/-- C6 (amended): whenever a NONZERO stored expiry is past due by the
60 second margin, the jwt callback attempts a refresh; when that refresh
request throws or returns non-ok, the resulting token has accessToken
null and accessTokenExpires 0, the session callback then exposes a null
access token, later jwt callback invocations leave that failed token
unchanged (so every subsequent session stays null), and the reverse
proxy forwards with only the host and content-length headers removed,
attaching no authorization header. -/
theorem jwt_refresh_failure_clears_token (t : Token) (e now : Int)
    (outcome : FetchOutcome RefreshData)
    (he : t.accessTokenExpires = some e) (h0 : e ≠ 0) (hnow : now > e - 60000)
    (hfail : outcome = FetchOutcome.throws ∨
      ∃ d, outcome = FetchOutcome.response false d) :
    shouldRefresh t now = true
    ∧ jwtCallback t none now outcome = refreshAccessToken t now outcome
    ∧ (jwtCallback t none now outcome).accessToken = none
    ∧ (jwtCallback t none now outcome).accessTokenExpires = some 0
    ∧ (sessionCallback (jwtCallback t none now outcome)).accessToken = none
    ∧ (∀ now2 outcome2,
        jwtCallback (jwtCallback t none now outcome) none now2 outcome2
          = jwtCallback t none now outcome)
    ∧ ∀ env origin req,
        (Proxy.forwardedRequest env origin
            (Except.ok (sessionCallback (jwtCallback t none now outcome)).accessToken)
            req).headers
          = Proxy.removeHeader "content-length"
              (Proxy.removeHeader "host" req.headers) := by
  have hsr : shouldRefresh t now = true := by
    simp [shouldRefresh, he, h0, hnow]
  have hjc : jwtCallback t none now outcome = refreshAccessToken t now outcome := by
    simp [jwtCallback, hsr]
  have hat : (refreshAccessToken t now outcome).accessToken = none := by
    rcases hfail with h | ⟨d, h⟩ <;> simp [refreshAccessToken, h]
  have hexp : (refreshAccessToken t now outcome).accessTokenExpires = some 0 := by
    rcases hfail with h | ⟨d, h⟩ <;> simp [refreshAccessToken, h]
  have hsess : (sessionCallback (jwtCallback t none now outcome)).accessToken = none := by
    rw [sessionCallback_accessToken, hjc, hat]
  have hstable : ∀ now2 outcome2,
      jwtCallback (jwtCallback t none now outcome) none now2 outcome2
        = jwtCallback t none now outcome := by
    intro now2 outcome2
    rw [hjc]
    have hsr2 : shouldRefresh (refreshAccessToken t now outcome) now2 = false := by
      simp [shouldRefresh, hexp]
    simp [jwtCallback, hsr2]
  refine ⟨hsr, hjc, by rw [hjc, hat], by rw [hjc, hexp], hsess, hstable, ?_⟩
  intro env origin req
  rw [hsess]
  exact forwardedRequest_headers_noToken env origin req

theorem jwt_refresh_failure_clears_token_witness :
    (jwtCallback expiringToken none 6000000 FetchOutcome.throws).accessToken = none
    ∧ (sessionCallback
        (jwtCallback expiringToken none 6000000 FetchOutcome.throws)).accessToken = none :=
  ⟨(jwt_refresh_failure_clears_token expiringToken 5000000 6000000
      FetchOutcome.throws rfl (by norm_num) (by norm_num) (Or.inl rfl)).2.2.1,
   (jwt_refresh_failure_clears_token expiringToken 5000000 6000000
      FetchOutcome.throws rfl (by norm_num) (by norm_num) (Or.inl rfl)).2.2.2.2.1⟩

end Auth

namespace ActivityReview

/-- C3: when the listing response is not ok or the fetch throws,
`fetchFiles` sets exactly one inline error message, clears the loading
flag, leaves the previously held file list unchanged, and issues exactly
one request with no retry or backoff. -/
theorem fetchFiles_error_handling (u : String) (s : State)
    (outcome : FetchFilesOutcome)
    (herr : outcome = FetchFilesOutcome.notOk ∨
      ∃ m, outcome = FetchFilesOutcome.throws m) :
    (∃ m, (fetchFiles (some u) outcome s).1.error = some m)
    ∧ ((fetchFiles (some u) outcome s).2.errorSets.filterMap id).length = 1
    ∧ (fetchFiles (some u) outcome s).1.loading = false
    ∧ (fetchFiles (some u) outcome s).1.files = s.files
    ∧ (fetchFiles (some u) outcome s).2.requestsIssued = 1 := by
  rcases herr with h | ⟨m, h⟩ <;>
    simp [fetchFiles, h, List.filterMap]

theorem fetchFiles_error_handling_witness :
    (∃ m, (fetchFiles (some "u1") FetchFilesOutcome.notOk demoState).1.error = some m)
    ∧ ((fetchFiles (some "u1") FetchFilesOutcome.notOk
          demoState).2.errorSets.filterMap id).length = 1
    ∧ (fetchFiles (some "u1") FetchFilesOutcome.notOk demoState).1.loading = false
    ∧ (fetchFiles (some "u1") FetchFilesOutcome.notOk demoState).1.files
        = demoState.files
    ∧ (fetchFiles (some "u1") FetchFilesOutcome.notOk demoState).2.requestsIssued = 1 :=
  fetchFiles_error_handling "u1" demoState FetchFilesOutcome.notOk (Or.inl rfl)

end ActivityReview

namespace DocumentParser

theorem length_filter_success_add_error (l : List ReportEntry) :
    (l.filter (fun r => decide (r.status = EntryStatus.success))).length
      + (l.filter (fun r => decide (r.status = EntryStatus.error))).length
      = l.length := by
  induction l with
  | nil => rfl
  | cons x t ih =>
    cases hx : x.status <;> (simp [List.filter, hx]; omega)

theorem connTrace_extends (m k : Nat) :
    ∃ rest, connTrace (m + k) = connTrace m ++ rest := by
  induction k with
  | zero => exact ⟨[], by simp⟩
  | succ k ih =>
    obtain ⟨r, hr⟩ := ih
    exact ⟨r ++ [Ev.openConn (m + k), Ev.closeConn (m + k)],
      by simp [connTrace, hr]⟩

theorem openConn_not_mem_connTrace (j n : Nat) (h : n ≤ j) :
    Ev.openConn j ∉ connTrace n := by
  induction n with
  | zero => simp [connTrace]
  | succ n ih =>
    intro hmem
    simp only [connTrace, List.mem_append, List.mem_cons,
      List.mem_singleton, List.not_mem_nil] at hmem
    rcases hmem with hm | hm | hm | hm
    · exact ih (Nat.le_of_succ_le h) hm
    · have : j = n := by injection hm
      omega
    · exact Ev.noConfusion hm
    · exact hm

theorem closeConn_mem_connTrace (i n : Nat) (h : i < n) :
    Ev.closeConn i ∈ connTrace n := by
  induction n with
  | zero => omega
  | succ n ih =>
    by_cases hi : i < n
    · simp only [connTrace, List.mem_append]
      exact Or.inl (ih hi)
    · have hin : i = n := by omega
      simp [connTrace, hin]

theorem count_openConn_connTrace (i n : Nat) (h : i < n) :
    ((connTrace n).filter (fun e => decide (e = Ev.openConn i))).length = 1 := by
  induction n with
  | zero => omega
  | succ n ih =>
    by_cases hi : i < n
    · have hne : (Ev.openConn n : Ev) ≠ Ev.openConn i := by
        intro hx
        injection hx with hx
        omega
      simp [connTrace, List.filter_append, List.filter, hne, ih hi]
    · have hin : i = n := by omega
      subst hin
      have hzero :
          (connTrace i).filter (fun e => decide (e = Ev.openConn i)) = [] := by
        rw [List.filter_eq_nil]
        intro a ha
        simp only [decide_eq_true_eq]
        intro hax
        exact openConn_not_mem_connTrace i i le_rfl (hax ▸ ha)
      simp [connTrace, List.filter_append, List.filter, hzero]

/-- C4: the loop processes each selected file over one SSE connection;
when the connection reports an error event or is lost before a result,
the loop records the error for that file and continues with the rest of
the selection unchanged; the file's connection is opened exactly once
in the whole run, so nothing is reopened or retried. -/
theorem parser_error_moves_on (pre post : List (S3FileInfo × SSEOutcome))
    (f : S3FileInfo) (o : SSEOutcome)
    (herr : (∃ m, o = SSEOutcome.errorEvent m) ∨ o = SSEOutcome.connectionLost) :
    ((processSelectedFiles (pre ++ (f, o) :: post)).1.files
        = pre.map (fun p => reportEntry p.1 p.2)
          ++ reportEntry f o :: post.map (fun p => reportEntry p.1 p.2))
    ∧ (reportEntry f o).status = EntryStatus.error
    ∧ (reportEntry f o).error = some "Processing failed - no result received"
    ∧ (finalItem f o).status = FStatus.error
    ∧ ((connTrace (pre ++ (f, o) :: post).length).filter
        (fun e => decide (e = Ev.openConn pre.length))).length = 1 := by
  refine ⟨?_, ?_, ?_, ?_, ?_⟩
  · simp [processSelectedFiles]
  · rcases herr with ⟨m, h⟩ | h <;> simp [reportEntry, h]
  · rcases herr with ⟨m, h⟩ | h <;> simp [reportEntry, h]
  · rcases herr with ⟨m, h⟩ | h <;> simp [finalItem, h]
  · apply count_openConn_connTrace
    simp

theorem parser_error_moves_on_witness :
    ((processSelectedFiles [(demoFile, SSEOutcome.connectionLost)]).1.files
        = [reportEntry demoFile SSEOutcome.connectionLost])
    ∧ (reportEntry demoFile SSEOutcome.connectionLost).status = EntryStatus.error :=
  ⟨(parser_error_moves_on [] [] demoFile SSEOutcome.connectionLost (Or.inr rfl)).1,
   (parser_error_moves_on [] [] demoFile SSEOutcome.connectionLost (Or.inr rfl)).2.1⟩

/-- C5 as stated fails: the document parser does track a per-item
processing status that moves through multiple states: on a successful
run a file's status takes the three distinct values pending, processing
and success, drawn from the four-state FileItem status type. -/
theorem parser_multistate_counterexample :
    statusTrace demoFile (SSEOutcome.resultEvent demoResult)
        = [FStatus.pending, FStatus.processing, FStatus.success]
    ∧ 3 ≤ (statusTrace demoFile (SSEOutcome.resultEvent demoResult)).dedup.length :=
  ⟨rfl, by decide⟩

/-- C5 (amended): except for the document parser's per-file status,
which moves pending, processing, then success or error, components keep
no multi-state per-item status; the parser's machine takes exactly one
of the two terminal paths. -/
theorem parser_status_machine (f : S3FileInfo) (o : SSEOutcome) :
    statusTrace f o = [FStatus.pending, FStatus.processing, FStatus.success]
    ∨ statusTrace f o
        = [FStatus.pending, FStatus.processing, FStatus.error, FStatus.error] := by
  cases o <;> simp [statusTrace]

/-- C8: for every run over a non-empty selection, the report satisfies
successful plus failed equals total_files, total_files is the number of
selected files, the entries are one per file in processing order, and
total_chunks sums the chunks of exactly the successful entries. -/
theorem report_invariants (inputs : List (S3FileInfo × SSEOutcome))
    (hne : inputs ≠ []) :
    ((processSelectedFiles inputs).1.successful
        + (processSelectedFiles inputs).1.failed
        = (processSelectedFiles inputs).1.total_files)
    ∧ (processSelectedFiles inputs).1.total_files = inputs.length
    ∧ (processSelectedFiles inputs).1.files
        = inputs.map (fun p => reportEntry p.1 p.2)
    ∧ (processSelectedFiles inputs).1.total_chunks
        = (((processSelectedFiles inputs).1.files.filter
              (fun r => decide (r.status = EntryStatus.success))).map
            (fun r => r.chunks.getD 0)).sum := by
  refine ⟨?_, rfl, rfl, rfl⟩
  simpa [processSelectedFiles] using
    length_filter_success_add_error (inputs.map (fun p => reportEntry p.1 p.2))

/-- The selection used by the report witness. -/
def demoInputs : List (S3FileInfo × SSEOutcome) :=
  [(demoFile, SSEOutcome.resultEvent demoResult), (demoFile, SSEOutcome.connectionLost)]

theorem report_invariants_witness :
    ((processSelectedFiles demoInputs).1.successful
        + (processSelectedFiles demoInputs).1.failed
        = (processSelectedFiles demoInputs).1.total_files)
    ∧ (processSelectedFiles demoInputs).1.total_files = demoInputs.length :=
  ⟨(report_invariants demoInputs (by decide)).1,
   (report_invariants demoInputs (by decide)).2.1⟩

/-- C9: no in-flight request is ever cancelled: the processing loop
completes the whole open-close block of connection i before connection
i plus one is opened (the loop waits for the CLOSED state), and the
upload XMLHttpRequest trace never contains an abort event. -/
theorem no_request_cancelled (i n : Nat) (h : i + 1 ≤ n)
    (o : TestingUpload.UploadOutcome) :
    (∃ rest, connTrace n = connTrace (i + 1) ++ rest)
    ∧ Ev.closeConn i ∈ connTrace (i + 1)
    ∧ Ev.openConn (i + 1) ∉ connTrace (i + 1)
    ∧ TestingUpload.XhrEvent.abort ∉ TestingUpload.xhrTrace o := by
  obtain ⟨k, hk⟩ : ∃ k, n = (i + 1) + k := ⟨n - (i + 1), by omega⟩
  subst hk
  refine ⟨connTrace_extends (i + 1) k,
    closeConn_mem_connTrace i (i + 1) (Nat.lt_succ_self i),
    openConn_not_mem_connTrace (i + 1) (i + 1) le_rfl, ?_⟩
  cases o <;> simp [TestingUpload.xhrTrace]

theorem no_request_cancelled_witness :
    Ev.closeConn 0 ∈ connTrace 1
    ∧ TestingUpload.XhrEvent.abort ∉
        TestingUpload.xhrTrace (TestingUpload.UploadOutcome.load 200 [50]) :=
  ⟨(no_request_cancelled 0 2 (by omega)
      (TestingUpload.UploadOutcome.load 200 [50])).2.1,
   (no_request_cancelled 0 2 (by omega)
      (TestingUpload.UploadOutcome.load 200 [50])).2.2.2⟩

end DocumentParser

namespace FileSections

/-- C7 as stated fails: the all-files grouping places a file that has
no section field under the key other, a fifth category outside the four
named sections. -/
theorem section_grouping_counterexample :
    sectionOf orphanFile = "other"
    ∧ sectionOf orphanFile ∉ knownSections
    ∧ groupBySection [orphanFile] = [("other", [orphanFile])] := by
  refine ⟨rfl, by decide, ?_⟩
  simp [groupBySection, sectionOf, orphanFile]

/-- C7 (amended): grouping keys files by their own section string when
it is present and nonempty and by the fallback other otherwise; the
four named sections are the labelled ones, and the section preview
component accepts exactly those four. -/
theorem section_grouping_amended (f : UploadedFile) (s : String) :
    (f.sectionName = some s → s ≠ "" → sectionOf f = s)
    ∧ (f.sectionName = none → sectionOf f = "other")
    ∧ groupBySection [f] = [(sectionOf f, [f])]
    ∧ (∀ sec : SectionProp, sectionPropKey sec ∈ knownSections) := by
  refine ⟨?_, ?_, ?_, ?_⟩
  · intro h hne
    simp [sectionOf, h, hne]
  · intro h
    simp [sectionOf, h]
  · simp [groupBySection]
  · intro sec
    cases sec <;> simp [sectionPropKey, knownSections]

theorem section_grouping_amended_witness :
    sectionOf { orphanFile with sectionName := some "education" } = "education" :=
  (section_grouping_amended { orphanFile with sectionName := some "education" }
    "education").1 rfl (by decide)

end FileSections

namespace UserStore

theorem getFile_setFile_self (s : Store) (p : String) (c : Option (List User)) :
    getFile (setFile s p c) p = some c := by
  unfold setFile
  induction s with
  | nil => simp [getFile, List.find?]
  | cons q t ih =>
    by_cases hq : q.1 = p
    · simpa [List.filter, hq] using ih
    · simpa [getFile, List.filter, List.find?, hq] using ih

theorem readUsers_writeUsers (s : Store) (l : List User) :
    readUsers (writeUsers s l) = l := by
  have h1 : getFile (writeUsers s l) dataFile = some (some l) := by
    unfold writeUsers
    exact getFile_setFile_self _ _ _
  unfold readUsers ensureFile
  simp [h1]

/-- C10 as stated fails: the user-store module is an operation of the
program that writes a persistent store shared across requests: adding a
user to an empty disk changes the disk, and a subsequent read returns
the stored user. -/
theorem userstore_write_counterexample :
    addUser ([] : Store) demoUser ≠ ([] : Store)
    ∧ readUsers (addUser ([] : Store) demoUser) = [demoUser] := by
  refine ⟨by decide, ?_⟩
  simpa using readUsers_writeUsers ([] : Store) [demoUser]

/-- C10 (amended): apart from ephemeral in-memory component state, the
only shared mutable resource is the user-store JSON file, which addUser
really does persist: a later read over the updated store returns the
previous users with the new one appended. -/
theorem userstore_addUser_persists (s : Store) (u : User) :
    readUsers (addUser s u) = readUsers s ++ [u] := by
  unfold addUser
  exact readUsers_writeUsers s (readUsers s ++ [u])

end UserStore

end EzCommon
